import Mathlib

/-!
Verification development for the DESI DLA detection code
(`dlasearch.py`, `gpy_dla_detection/voigt.py`, `gpy_dla_detection/dla_samples.py`).

The Python modules are shallowly embedded: exact arithmetic on `ℚ` replaces
floating point, transcendental values live in `ℝ`, fallible code returns
`Option` (with `none` for a raised exception), and the external collaborators
(the DESI i/o layer, the spectral fitters `fit_spectrum` / `fit_spectrum_DLA`,
the `constants` / `set_parameters` / `fitwarning` modules, which are not among
the sources) appear as explicitly modelled parameters or structures.
-/

open MeasureTheory

namespace DesiDla

/-! ## Embedding of `src/gpy_dla_detection/voigt.py` -/

/-- Speed of light in cgs, `c = 2.99792458e10` (cm/s). -/
def c : ℚ := 29979245800

/-- Rest wavelengths of the Lyman series transitions, in cm (31 entries). -/
def transition_wavelengths : List ℚ := [
  12156701 / 10 ^ 12,
  10257223 / 10 ^ 12,
  9725368 / 10 ^ 12,
  9497431 / 10 ^ 12,
  9378035 / 10 ^ 12,
  9307483 / 10 ^ 12,
  9262257 / 10 ^ 12,
  9231504 / 10 ^ 12,
  9209631 / 10 ^ 12,
  9193514 / 10 ^ 12,
  9181294 / 10 ^ 12,
  9171806 / 10 ^ 12,
  916429 / 10 ^ 11,
  915824 / 10 ^ 11,
  915329 / 10 ^ 11,
  914919 / 10 ^ 11,
  914576 / 10 ^ 11,
  914286 / 10 ^ 11,
  914039 / 10 ^ 11,
  913826 / 10 ^ 11,
  913641 / 10 ^ 11,
  91348 / 10 ^ 10,
  913339 / 10 ^ 11,
  913215 / 10 ^ 11,
  913104 / 10 ^ 11,
  913006 / 10 ^ 11,
  912918 / 10 ^ 11,
  912839 / 10 ^ 11,
  912768 / 10 ^ 11,
  912703 / 10 ^ 11,
  912645 / 10 ^ 11]

/-- Oscillator strengths of the Lyman series transitions (dimensionless). -/
def oscillator_strengths : List ℚ := [
  4164 / 10 ^ 4,
  7912 / 10 ^ 5,
  29 / 10 ^ 3,
  1394 / 10 ^ 5,
  7799 / 10 ^ 6,
  4814 / 10 ^ 6,
  3183 / 10 ^ 6,
  2216 / 10 ^ 6,
  1605 / 10 ^ 6,
  12 / 10 ^ 4,
  921 / 10 ^ 6,
  7226 / 10 ^ 7,
  577 / 10 ^ 6,
  469 / 10 ^ 6,
  386 / 10 ^ 6,
  321 / 10 ^ 6,
  27 / 10 ^ 5,
  23 / 10 ^ 5,
  197 / 10 ^ 6,
  17 / 10 ^ 5,
  148 / 10 ^ 6,
  129 / 10 ^ 6,
  114 / 10 ^ 6,
  101 / 10 ^ 6,
  89 / 10 ^ 6,
  8 / 10 ^ 5,
  71 / 10 ^ 6,
  64 / 10 ^ 6,
  58 / 10 ^ 6,
  53 / 10 ^ 6,
  48 / 10 ^ 6]

/-- Transition rates of the Lyman series transitions (1/s). -/
def Gammas : List ℚ := [
  626500000,
  189700000,
  81270000,
  42040000,
  24500000,
  12360000,
  8255000,
  5785000,
  4210000,
  3160000,
  2432000,
  1911000,
  1529000,
  1243000,
  1024000,
  853300,
  718600,
  610900,
  523700,
  452300,
  393300,
  344300,
  303000,
  267900,
  238200,
  212700,
  190700,
  171600,
  155000,
  140500,
  127700]

/-- Fixed thermal Gaussian width, `sigma = 9.08537121627923800e05` (cm/s). -/
def sigma : ℚ := 9085371216279238 / 10 ^ 10

/-- Leading constants `pi e^2 f_ul lambda_ul / (m_e c)` per transition (cm^2). -/
def leading_constants : List ℚ := [
  134347262962625339 / 10 ^ 24,
  215386482180851912 / 10 ^ 25,
  748525170087141461 / 10 ^ 26,
  351375347286007472 / 10 ^ 26,
  194112336271172934 / 10 ^ 26,
  118916112899713152 / 10 ^ 26,
  782448627128742997 / 10 ^ 27,
  542930932279390593 / 10 ^ 27,
  392301197282493829 / 10 ^ 27,
  292796010451409027 / 10 ^ 27,
  224422239410389782 / 10 ^ 27,
  175895684469038289 / 10 ^ 27,
  140338556137474778 / 10 ^ 27,
  113995374637743197 / 10 ^ 27,
  937706429662300083 / 10 ^ 28,
  779453203101192392 / 10 ^ 28,
  655369055970184901 / 10 ^ 28,
  558100321584169051 / 10 ^ 28,
  477895916635794548 / 10 ^ 28,
  412301389852588843 / 10 ^ 28,
  358872072638707592 / 10 ^ 28,
  31274553679821408 / 10 ^ 27,
  276337116167110415 / 10 ^ 28,
  244791750078032772 / 10 ^ 28,
  215681362798480253 / 10 ^ 28,
  193850080479346101 / 10 ^ 28,
  172025364178111889 / 10 ^ 28,
  155051698336865945 / 10 ^ 28,
  140504672409331934 / 10 ^ 28,
  128383057589411395 / 10 ^ 28,
  116264059622218997 / 10 ^ 28]

/-- Lorentzian widths `Gammas[i] * transition_wavelengths[i] / (4 pi)` (cm/s). -/
def gammas : List ℚ := [
  606075804241938613 / 10 ^ 15,
  154841462408931704 / 10 ^ 15,
  628964942715328164 / 10 ^ 16,
  317730561586147395 / 10 ^ 16,
  18283867677550333 / 10 ^ 15,
  915463131005758157 / 10 ^ 17,
  608448802613156925 / 10 ^ 17,
  424977523573725779 / 10 ^ 17,
  308542121666345803 / 10 ^ 17,
  231184525202557767 / 10 ^ 17,
  177687796208123139 / 10 ^ 17,
  139477990932179852 / 10 ^ 17,
  111505539984541979 / 10 ^ 17,
  905885451682623022 / 10 ^ 18,
  745877170715450677 / 10 ^ 18,
  621261624902197052 / 10 ^ 18,
  522994533400935269 / 10 ^ 18,
  444469874827484512 / 10 ^ 18,
  380923210837841919 / 10 ^ 18,
  328912390446060132 / 10 ^ 18,
  285949711597237033 / 10 ^ 18,
  250280032040928802 / 10 ^ 18,
  220224061101442048 / 10 ^ 18,
  194686521675913549 / 10 ^ 18,
  173082093051965591 / 10 ^ 18,
  15453656601381649 / 10 ^ 17,
  138539175663870029 / 10 ^ 18,
  124652675945279762 / 10 ^ 18,
  112585442799479921 / 10 ^ 18,
  102045988802423507 / 10 ^ 18,
  927433783998286437 / 10 ^ 19]

/-- Fixed half-width of the instrumental convolution kernel, `width = 3`. -/
def width : ℕ := 3

/-- The 7-tap instrumental profile. Its exact sum is
`49999999999999997481 / 50000000000000000000`, slightly below 1. -/
def instrument_profile : List ℚ := [
  217460992138080811 / 10 ^ 20,
  411623059580451742 / 10 ^ 19,
  240309364651846963 / 10 ^ 18,
  432707438937454059 / 10 ^ 18,
  240309364651846963 / 10 ^ 18,
  411623059580451742 / 10 ^ 19,
  217460992138080811 / 10 ^ 20]

/-- Total mass of the instrumental kernel (the sum of its 7 taps). -/
def kernelMass : ℚ := instrument_profile.sum

/-- Real part of the Faddeeva function `w(x + iy)` for `y > 0`, the function
computed by `scipy.special.wofz`. For `Im z > 0` one has
`w(z) = (i/pi) * integral of exp(-t^2)/(z-t) dt`, whose real part is the
integral below. -/
noncomputable def wofzRe (x y : ℝ) : ℝ :=
  (y / Real.pi) * ∫ t : ℝ, Real.exp (-(t ^ 2)) / ((x - t) ^ 2 + y ^ 2)

/-- The `Gaussian` helper of voigt.py:
`G(x; sigma) = 1 / sqrt(2 pi sigma^2) * exp(-x^2 / 2 sigma^2)`. -/
noncomputable def Gaussian (x sg : ℝ) : ℝ :=
  1 / Real.sqrt (2 * Real.pi * sg ^ 2) * Real.exp (-(x ^ 2) / 2 / sg ^ 2)

/-- The `Lorentzian` helper of voigt.py: `L(x; gamma) = (gamma/pi) / (x^2 + gamma^2)`. -/
noncomputable def Lorentzian (x gm : ℝ) : ℝ :=
  gm / Real.pi / (x ^ 2 + gm ^ 2)

/-- The `Voigt` function of voigt.py:
`V(x; sigma, gamma) = Re[w(z)] / sqrt(2 pi sigma^2)` with
`z = (x + i gamma) / (sqrt 2 sigma)`. -/
noncomputable def Voigt (x sg gm : ℝ) : ℝ :=
  wofzRe (x / (Real.sqrt 2 * sg)) (gm / (Real.sqrt 2 * sg)) /
    (Real.sqrt (2 * Real.pi) * sg)

/-- The multiplier `c / (transition_wavelengths[l] * (1 + z_dla)) / 1e8`
turning observed wavelengths (Angstrom) into relative velocities. -/
def multipliers (z_dla : ℚ) (l : ℕ) : ℚ :=
  c / (transition_wavelengths.getD l 0 * (1 + z_dla)) / 10 ^ 8

/-- The raw (un-broadened) absorption profile of `voigt_absorption`:
`raw_profile[p] = exp(nhi * sum over l of
(-leading_constants[l] * Voigt(wavelengths[p] * multipliers[l] - c, sigma, gammas[l])))`.
The sum over transitions is `np.nansum(total, axis=0)`; no NaN arises in the
exact-real model, so it is a plain finite sum. -/
noncomputable def rawProfile (wavelengths : List ℚ) (nhi z_dla : ℚ) (num_lines : ℕ) :
    List ℝ :=
  wavelengths.map fun w =>
    Real.exp ((nhi : ℝ) * ∑ l ∈ Finset.range num_lines,
      -((leading_constants.getD l 0 : ℚ) : ℝ) *
        Voigt ((w * multipliers z_dla l - c : ℚ) : ℝ) ((sigma : ℚ) : ℝ)
          ((gammas.getD l 0 : ℚ) : ℝ))

/-- Model of `np.convolve(a, v, "valid")`: the kernel is flipped, and when the
first argument is shorter than the second, numpy swaps the two operands
(convolution is commutative). -/
noncomputable def convolveValid (a v : List ℝ) : List ℝ :=
  if v.length ≤ a.length then
    (List.range (a.length - v.length + 1)).map fun i =>
      ∑ j ∈ Finset.range v.length, a.getD (i + j) 0 * v.getD (v.length - 1 - j) 0
  else
    (List.range (v.length - a.length + 1)).map fun i =>
      ∑ j ∈ Finset.range a.length, v.getD (i + j) 0 * a.getD (a.length - 1 - j) 0

/-- The instrumental kernel as real numbers. -/
noncomputable def instrument_profileR : List ℝ := instrument_profile.map fun q => (q : ℝ)

/-- The `voigt_absorption` function of voigt.py. `none` models a raised Python
exception:
the output buffer `np.zeros(num_points - 2 * width)` is allocated before the
broadening branch and raises for `num_points < 2 * width`; `num_lines > 31`
raises an index error on the 31-entry constant tables; with `boardening=True`
the assignment `profile[:] = np.convolve(raw_profile, instrument_profile,
"valid")` raises a broadcast error unless the convolution output length equals
`num_points - 2 * width`. -/
noncomputable def voigt_absorption (wavelengths : List ℚ) (nhi z_dla : ℚ)
    (num_lines : ℕ) (boardening : Bool) : Option (List ℝ) :=
  if wavelengths.length < 2 * width then none
  else if 31 < num_lines then none
  else if boardening then
    if (convolveValid (rawProfile wavelengths nhi z_dla num_lines)
          instrument_profileR).length = wavelengths.length - 2 * width
    then some (convolveValid (rawProfile wavelengths nhi z_dla num_lines)
          instrument_profileR)
    else none
  else some (rawProfile wavelengths nhi z_dla num_lines)

/-- Output pixel accessor for an optional profile (0 past the end / on error). -/
noncomputable def outPixel (o : Option (List ℝ)) (p : ℕ) : ℝ :=
  (o.getD []).getD p 0

/-! ## Embedding of `src/gpy_dla_detection/dla_samples.py` -/

/-- Modelled from the spec: the `Parameters` configuration object
(`set_parameters.py` is not among the sources). Only the attributes read by
`DLASamples.__init__` and `sample_z_dlas` appear; `min_z_dla` and `max_z_dla`
are kept abstract as functions of the wavelength array and the quasar
redshift, per the spec they bound the redshift range where the absorber's
Lyman-alpha line falls inside the observed/search window. -/
structure Parameters where
  num_dla_samples : ℕ
  uniform_min_log_nhi : ℚ
  uniform_max_log_nhi : ℚ
  fit_min_log_nhi : ℚ
  fit_max_log_nhi : ℚ
  alpha : ℚ
  min_z_dla : List ℚ → ℚ → ℚ
  max_z_dla : List ℚ → ℚ → ℚ

/-- Modelled from the spec: the `PriorCatalog` collaborator
(`model_priors.py` is not among the sources); no data of it is used by the
sample loader, so it carries none here. -/
structure PriorCatalog where
  unused : Unit

/-- Contents of the precomputed sample file read via h5py by
`DLASamplesMAT.__init__` (the fields the constructor accesses). -/
structure DLASamplesFile where
  alpha : ℚ
  uniform_min_log_nhi : ℚ
  uniform_max_log_nhi : ℚ
  offset_samples : List ℚ
  log_nhi_samples : List ℚ
  nhi_samples : List ℚ

/-- State of a successfully constructed `DLASamplesMAT` object. -/
structure DLASamplesMAT where
  params : Parameters
  prior : PriorCatalog
  num_dla_samples : ℕ
  uniform_min_log_nhi : ℚ
  uniform_max_log_nhi : ℚ
  fit_min_log_nhi : ℚ
  fit_max_log_nhi : ℚ
  alpha : ℚ
  offset_samples : List ℚ
  log_nhi_samples : List ℚ
  nhi_samples : List ℚ

/-- The constructor `DLASamplesMAT.__init__` (including the base-class
`DLASamples.__init__` field copies). The two `assert` statements compare
`alpha` and `uniform_min_log_nhi` against the loaded file; an
`AssertionError` is modelled as `none`. On success both uniform bounds are
(re)assigned from the file. -/
def DLASamplesMAT_init (params : Parameters) (prior : PriorCatalog)
    (f : DLASamplesFile) : Option DLASamplesMAT :=
  if params.alpha = f.alpha then
    if params.uniform_min_log_nhi = f.uniform_min_log_nhi then
      some { params := params
             prior := prior
             num_dla_samples := params.num_dla_samples
             uniform_min_log_nhi := f.uniform_min_log_nhi
             uniform_max_log_nhi := f.uniform_max_log_nhi
             fit_min_log_nhi := params.fit_min_log_nhi
             fit_max_log_nhi := params.fit_max_log_nhi
             alpha := params.alpha
             offset_samples := f.offset_samples
             log_nhi_samples := f.log_nhi_samples
             nhi_samples := f.nhi_samples }
    else none
  else none

/-- The method `DLASamplesMAT.sample_z_dlas`:
`min_z_dla + (max_z_dla - min_z_dla) * offset_samples`, elementwise over the
stored offset samples. -/
def sample_z_dlas (s : DLASamplesMAT) (wavelengths : List ℚ) (z_qso : ℚ) :
    List ℚ :=
  s.offset_samples.map fun o =>
    s.params.min_z_dla wavelengths z_qso
      + (s.params.max_z_dla wavelengths z_qso
          - s.params.min_z_dla wavelengths z_qso) * o

/-! ## Embedding of `src/dlasearch.py` (`process_spectra_group`) -/

/-- Modelled from the spec: the `constants` module of the repository is not
among the sources. Per spec sections 4.5 and 6 it provides the rest-frame
search-window bounds (lower bound near 900 Angstrom), the speed of light in
the velocity units of the BAL metadata, the Lya and Lyb rest wavelengths, and
the fixed set of named BAL transitions `bal_lines` with their rest
wavelengths. The code's comment "false positive should only come from Lya and
NV - all other lines too weak" and the `NCIV_450` / `VMIN_CIV_450` /
`VMAX_CIV_450` metadata columns imply `bal_lines` holds transitions besides
Lya and NV (such as CIV); it is kept as an abstract field here. -/
structure Constants where
  search_minlam : ℚ
  search_maxlam : ℚ
  c : ℚ
  Lya_line : ℚ
  Lyb_line : ℚ
  bal_lines : List (String × ℚ)

/-- Modelled from the spec: the bit `DLAFLAG.POTENTIAL_BAL` of the warning
bitmask (`fitwarning.py` is not among the sources). Its concrete value is
irrelevant to the claims; any fixed bit works. -/
def POTENTIAL_BAL : ℕ := 8

/-- One BAL feature of a target: the `VMIN_CIV_450[n]` / `VMAX_CIV_450[n]`
velocity extents. -/
structure BalFeature where
  vmin : ℚ
  vmax : ℚ

/-- The body of the inner loop `for line, lam in constants.bal_lines.items()`:
append the observed-wavelength window to `bal_locs` when the line is Lya or
NV, and zero the inverse variance at pixels with
`lam * v_max < wave_rf < lam * v_min`. The state is the pair
(inverse variance array, recorded windows). -/
def balLineStep (wave_rf : List ℚ) (zqso v_min v_max : ℚ)
    (st : List ℚ × List (ℚ × ℚ)) (le : String × ℚ) : List ℚ × List (ℚ × ℚ) :=
  let lam := le.2
  let locs := if le.1 = "Lya" ∨ le.1 = "NV" then
      st.2 ++ [(lam * v_min * (1 + zqso), lam * v_max * (1 + zqso))]
    else st.2
  let ivar := List.zipWith
    (fun w iv => if lam * v_max < w ∧ w < lam * v_min then 0 else iv) wave_rf st.1
  (ivar, locs)

/-- The body of the outer loop `for n in range(nbal)`: compute
`v_max = -VMAX/c + 1`, `v_min = -VMIN/c + 1` and run the line loop. -/
def balFeatureStep (cst : Constants) (zqso : ℚ) (wave_rf : List ℚ)
    (st : List ℚ × List (ℚ × ℚ)) (f : BalFeature) : List ℚ × List (ℚ × ℚ) :=
  let v_max := -f.vmax / cst.c + 1
  let v_min := -f.vmin / cst.c + 1
  cst.bal_lines.foldl (balLineStep wave_rf zqso v_min v_max) st

/-- The BAL masking block of `process_spectra_group` (lines 302-319): for each
BAL feature, zero the inverse variance inside each named transition's velocity
window and record the observed-wavelength windows of Lya and NV in
`bal_locs`. -/
def applyBalMask (cst : Constants) (zqso : ℚ) (wave_rf ivar : List ℚ)
    (features : List BalFeature) : List ℚ × List (ℚ × ℚ) :=
  features.foldl (balFeatureStep cst zqso wave_rf) (ivar, [])

/-- The skip test of `process_spectra_group` (lines 321-324):
`np.sum(ivar[fitmask][searchmask] != 0) / np.sum(searchmask) < 0.2`.
The argument is the composed array `ivar[fitmask][searchmask]`, whose length
equals `np.sum(searchmask)`. When the search window is empty numpy evaluates
`0 / 0` to NaN and `NaN < 0.2` is false, so the target is not skipped. -/
def searchWindowSkip (ivarSearch : List ℚ) : Bool :=
  if ivarSearch.length = 0 then false
  else decide ((ivarSearch.countP (fun x => decide (x ≠ 0)) : ℚ)
    / ivarSearch.length < 1 / 5)

/-- One window pass of the BAL contamination check (lines 373-377):
`balflag = (lam_center_dla < window[0]) & (lam_center_dla > window[1])`,
then `fitwarn[balflag] |= DLAFLAG.POTENTIAL_BAL`, elementwise over the fitted
absorber array. -/
def balFlagStep (cst : Constants) (zdla : List ℚ) (fw : List ℕ)
    (window : ℚ × ℚ) : List ℕ :=
  List.zipWith
    (fun z w =>
      if cst.Lya_line * (1 + z) < window.1 ∧ window.2 < cst.Lya_line * (1 + z)
      then w ||| POTENTIAL_BAL else w)
    zdla fw

/-- The loop `for window in bal_locs` of the BAL contamination check. -/
def applyBalFlags (cst : Constants) (bal_locs : List (ℚ × ℚ)) (zdla : List ℚ)
    (fw : List ℕ) : List ℕ :=
  bal_locs.foldl (balFlagStep cst zdla) fw

/-- Boolean-mask application, modelling numpy fancy indexing `xs[mask]`. -/
def applyMask {α : Type} (mask : List Bool) (xs : List α) : List α :=
  (mask.zip xs).filterMap fun mx => if mx.1 then some mx.2 else none

/-- Output of the external fitter `fit_spectrum_DLA` (not among the sources;
kept abstract): the arrays `zdla, zerr, nhi, nhierr, dchi2, fitwarn,
coeff_dla`, sentinel-filled (`z = -1`) past the detected absorbers. -/
structure DLAFitOutput where
  zdla : List ℚ
  zerr : List ℚ
  nhi : List ℚ
  nhierr : List ℚ
  dchi2 : List ℚ
  fitwarn : List ℕ
  coeff : List (List ℚ)

/-- One catalog entry: target id, sky position, quasar redshift, and the
optional BAL metadata (`some features` when the `NCIV_450` column is present,
with `features.length = NCIV_450`). -/
structure CatalogEntry where
  tid : ℕ
  ra : ℚ
  dec : ℚ
  z : ℚ
  balFeatures : Option (List BalFeature)

/-- One output row of the results table (the numeric columns; the string
column `DLAID = str(tid) + "00" + str(n)` is carried as the pair of
`targetid` and the sequence number `dlaSeq`). -/
structure Row where
  targetid : ℕ
  ra : ℚ
  dec : ℚ
  z_qso : ℚ
  snr : ℝ
  dlaSeq : ℕ
  z_dla : ℚ
  z_dla_err : ℚ
  nhi : ℚ
  nhi_err : ℚ
  coeff : List ℚ
  deltachi2 : ℚ
  dlaflag : ℕ

/-- Per-target outcome of the loop body of `process_spectra_group`, for a
target that was not skipped. -/
structure TargetResult where
  zdla : List ℚ
  bal_locs : List (ℚ × ℚ)
  fitwarn : List ℕ
  rows : List Row

/-- The per-target loop body of `process_spectra_group` (lines 269-399) for a
target found in the spectra file. `none` models `continue` (the target is
skipped because its search window is more than 80% masked). The construction
of the continuum model matrix and of `var_lss` (lines 326-357) feeds only the
external fitters, which are abstracted into the single function argument
`fitDLA` standing for `fit_spectrum` plus `fit_spectrum_DLA`. -/
noncomputable def processEntry (cst : Constants)
    (fitDLA : List ℚ → List ℚ → List ℚ → List Bool → DLAFitOutput)
    (wave : List ℚ) (e : CatalogEntry) (flux ivar0 : List ℚ) :
    Option TargetResult :=
  let wave_rf := wave.map fun w => w / (1 + e.z)
  let masked := match e.balFeatures with
    | some fs => applyBalMask cst e.z wave_rf ivar0 fs
    | none => (ivar0, [])
  let ivar := masked.1
  let bal_locs := masked.2
  let fitmask := wave_rf.map fun w => decide (cst.search_minlam < w)
  let wrfFit := applyMask fitmask wave_rf
  let waveFit := applyMask fitmask wave
  let fluxFit := applyMask fitmask flux
  let ivarFit := applyMask fitmask ivar
  let searchmask := wrfFit.map fun w =>
    decide (cst.search_minlam ≤ w ∧ w ≤ cst.search_maxlam)
  let ivarSearch := applyMask searchmask ivarFit
  let fluxSearch := applyMask searchmask fluxFit
  if searchWindowSkip ivarSearch then none
  else
    let out := fitDLA waveFit fluxFit ivarFit searchmask
    let fitwarn := if e.balFeatures.isSome ∧ out.zdla.any fun z => decide (z ≠ -1)
      then applyBalFlags cst bal_locs out.zdla out.fitwarn
      else out.fitwarn
    let ndla := out.zdla.countP fun z => decide (z ≠ -1)
    let snrPairs := (fluxSearch.zip ivarSearch).filter fun p => decide (p.2 ≠ 0)
    let snr : ℝ :=
      (snrPairs.map fun p => (p.1 : ℝ) * Real.sqrt (p.2 : ℝ)).sum / snrPairs.length
    some { zdla := out.zdla
           bal_locs := bal_locs
           fitwarn := fitwarn
           rows := (List.range ndla).map fun n =>
             { targetid := e.tid
               ra := e.ra
               dec := e.dec
               z_qso := e.z
               snr := snr
               dlaSeq := n
               z_dla := out.zdla.getD n 0
               z_dla_err := out.zerr.getD n 0
               nhi := out.nhi.getD n 0
               nhi_err := out.nhierr.getD n 0
               coeff := out.coeff.getD n []
               deltachi2 := out.dchi2.getD n 0
               dlaflag := fitwarn.getD n 0 } }

/-- Result of `process_spectra_group`: the empty tuple returned by the
zero-detection early exit, or the assembled table. -/
inductive FitResults where
  | empty : FitResults
  | table : List Row → FitResults

/-- The aggregation of `process_spectra_group` (lines 269-453): run the
per-target loop over the catalog (each entry paired with its flux and
inverse-variance arrays; targets absent from the spectra file are handled
upstream of this model), gather the per-absorber rows, and return the empty
result when no row was produced (the `len(tidlist) == 0` early exit at line
401). -/
noncomputable def process_spectra_group (cst : Constants)
    (fitDLA : List ℚ → List ℚ → List ℚ → List Bool → DLAFitOutput)
    (wave : List ℚ) (entries : List (CatalogEntry × List ℚ × List ℚ)) :
    FitResults :=
  let rows := entries.flatMap fun efi =>
    ((processEntry cst fitDLA wave efi.1 efi.2.1 efi.2.2).map
      TargetResult.rows).getD []
  if rows.isEmpty then FitResults.empty else FitResults.table rows

/-! ## Helper lemmas for the line-profile model -/

theorem wofzRe_pos (x y : ℝ) (hy : 0 < y) : 0 < wofzRe x y := by
  have hD : ∀ t : ℝ, 0 < (x - t) ^ 2 + y ^ 2 := by
    intro t; nlinarith [sq_nonneg (x - t), sq_nonneg y]
  have hpos : ∀ t : ℝ, 0 < Real.exp (-(t ^ 2)) / ((x - t) ^ 2 + y ^ 2) :=
    fun t => div_pos (Real.exp_pos _) (hD t)
  have hcont : Continuous fun t : ℝ => Real.exp (-(t ^ 2)) / ((x - t) ^ 2 + y ^ 2) := by
    apply Continuous.div
    · exact Real.continuous_exp.comp (by continuity)
    · continuity
    · exact fun t => (hD t).ne'
  have hy2 : (0:ℝ) < y ^ 2 := by positivity
  have hint : Integrable fun t : ℝ => Real.exp (-(t ^ 2)) / ((x - t) ^ 2 + y ^ 2) := by
    have hg : Integrable fun t : ℝ => 1 / y ^ 2 * Real.exp (-1 * t ^ 2) :=
      (integrable_exp_neg_mul_sq one_pos).const_mul _
    apply hg.mono' hcont.aestronglyMeasurable
    filter_upwards with t
    rw [Real.norm_eq_abs, abs_of_pos (hpos t), div_le_iff₀ (hD t)]
    have he : Real.exp (-1 * t ^ 2) = Real.exp (-(t ^ 2)) := by ring_nf
    rw [he]
    have h1le : (1:ℝ) ≤ (y ^ 2)⁻¹ * ((x - t) ^ 2 + y ^ 2) := by
      rw [inv_mul_eq_div, le_div_iff₀ hy2, one_mul]
      nlinarith [sq_nonneg (x - t)]
    calc Real.exp (-(t ^ 2)) = Real.exp (-(t ^ 2)) * 1 := (mul_one _).symm
      _ ≤ Real.exp (-(t ^ 2)) * ((y ^ 2)⁻¹ * ((x - t) ^ 2 + y ^ 2)) :=
          mul_le_mul_of_nonneg_left h1le (Real.exp_pos _).le
      _ = 1 / y ^ 2 * Real.exp (-(t ^ 2)) * ((x - t) ^ 2 + y ^ 2) := by ring
  have hI : 0 < ∫ t : ℝ, Real.exp (-(t ^ 2)) / ((x - t) ^ 2 + y ^ 2) := by
    rw [integral_pos_iff_support_of_nonneg (fun t => (hpos t).le) hint]
    have hsupp : Function.support
        (fun t : ℝ => Real.exp (-(t ^ 2)) / ((x - t) ^ 2 + y ^ 2)) = Set.univ :=
      Set.eq_univ_iff_forall.mpr fun t => (hpos t).ne'
    rw [hsupp, Real.volume_univ]
    exact ENNReal.zero_lt_top
  exact mul_pos (div_pos hy Real.pi_pos) hI

theorem Voigt_pos (x sg gm : ℝ) (hs : 0 < sg) (hg : 0 < gm) : 0 < Voigt x sg gm := by
  have h2 : (0:ℝ) < Real.sqrt 2 * sg :=
    mul_pos (Real.sqrt_pos.mpr two_pos) hs
  have hden : (0:ℝ) < Real.sqrt (2 * Real.pi) * sg :=
    mul_pos (Real.sqrt_pos.mpr (by positivity)) hs
  exact div_pos (wofzRe_pos _ _ (div_pos hg h2)) hden

theorem leading_constants_all_pos : ∀ x ∈ leading_constants, (0:ℚ) < x := by
  intro x hx
  fin_cases hx <;> norm_num

theorem gammas_all_pos : ∀ x ∈ gammas, (0:ℚ) < x := by
  intro x hx
  fin_cases hx <;> norm_num

theorem leading_constants_length : leading_constants.length = 31 := by decide

theorem gammas_length : gammas.length = 31 := by decide

theorem leading_constants_pos (l : ℕ) (hl : l < 31) :
    (0:ℚ) < leading_constants.getD l 0 := by
  have hl' : l < leading_constants.length := leading_constants_length ▸ hl
  rw [List.getD_eq_getElem _ _ hl']
  exact leading_constants_all_pos _ (List.getElem_mem hl')

theorem gammas_pos (l : ℕ) (hl : l < 31) : (0:ℚ) < gammas.getD l 0 := by
  have hl' : l < gammas.length := gammas_length ▸ hl
  rw [List.getD_eq_getElem _ _ hl']
  exact gammas_all_pos _ (List.getElem_mem hl')

theorem sigma_pos : (0:ℚ) < sigma := by norm_num [sigma]

theorem rawProfile_length (ws : List ℚ) (nhi z_dla : ℚ) (nl : ℕ) :
    (rawProfile ws nhi z_dla nl).length = ws.length := by
  simp [rawProfile]

theorem rawProfile_getD (ws : List ℚ) (nhi z_dla : ℚ) (nl : ℕ) (p : ℕ)
    (hp : p < ws.length) :
    (rawProfile ws nhi z_dla nl).getD p 0
      = Real.exp ((nhi : ℝ) * ∑ l ∈ Finset.range nl,
          -((leading_constants.getD l 0 : ℚ) : ℝ) *
            Voigt ((ws.getD p 0 * multipliers z_dla l - c : ℚ) : ℝ)
              ((sigma : ℚ) : ℝ) ((gammas.getD l 0 : ℚ) : ℝ)) := by
  rw [rawProfile, List.getD_eq_getElem _ _ (by simpa using hp), List.getElem_map,
    List.getD_eq_getElem _ _ hp]

theorem rawProfile_eq_replicate (ws : List ℚ) (nhi z_dla : ℚ) (nl : ℕ)
    (hn : nhi = 0 ∨ nl = 0) :
    rawProfile ws nhi z_dla nl = List.replicate ws.length 1 := by
  rw [rawProfile]
  have hone : ∀ w : ℚ, Real.exp ((nhi : ℝ) * ∑ l ∈ Finset.range nl,
      -((leading_constants.getD l 0 : ℚ) : ℝ) *
        Voigt ((w * multipliers z_dla l - c : ℚ) : ℝ) ((sigma : ℚ) : ℝ)
          ((gammas.getD l 0 : ℚ) : ℝ)) = 1 := by
    intro w
    rcases hn with hn | hn
    · rw [hn]; simp
    · rw [hn]; simp
  rw [List.map_congr_left fun w _ => hone w, List.map_const']

theorem instrument_profileR_length : instrument_profileR.length = 7 := by
  simp [instrument_profileR, instrument_profile]

theorem convolveValid_length_of_le (a v : List ℝ) (h : v.length ≤ a.length) :
    (convolveValid a v).length = a.length - v.length + 1 := by
  rw [convolveValid, if_pos h]
  simp

theorem convolveValid_replicate_one (n : ℕ) (h : 7 ≤ n) :
    convolveValid (List.replicate n 1) instrument_profileR
      = List.replicate (n - 6) ((kernelMass : ℚ) : ℝ) := by
  have hlen : instrument_profileR.length ≤ (List.replicate n (1:ℝ)).length := by
    simp [instrument_profileR_length]; omega
  rw [convolveValid, if_pos hlen]
  have hK : ∀ i ∈ List.range ((List.replicate n (1:ℝ)).length
      - instrument_profileR.length + 1),
      (∑ j ∈ Finset.range instrument_profileR.length,
        (List.replicate n (1:ℝ)).getD (i + j) 0
          * instrument_profileR.getD (instrument_profileR.length - 1 - j) 0)
        = ((kernelMass : ℚ) : ℝ) := by
    intro i hi
    rw [List.mem_range] at hi
    simp only [List.length_replicate, instrument_profileR_length] at hi ⊢
    have hrep : ∀ j : ℕ, j < 7 → (List.replicate n (1:ℝ)).getD (i + j) 0 = 1 := by
      intro j hj
      rw [List.getD_eq_getElem _ _ (by simp; omega)]
      simp
    rw [Finset.sum_congr rfl fun j hj => by
      rw [hrep j (Finset.mem_range.mp hj), one_mul]]
    simp only [instrument_profileR, instrument_profile, kernelMass]
    rw [show (7:ℕ) = 6 + 1 by rfl, Finset.sum_range_succ, Finset.sum_range_succ,
      Finset.sum_range_succ, Finset.sum_range_succ, Finset.sum_range_succ,
      Finset.sum_range_succ, Finset.sum_range_succ, Finset.sum_range_zero]
    norm_num
  rw [List.map_congr_left hK, List.map_const']
  simp only [List.length_range, List.length_replicate, instrument_profileR_length]
  congr 1
  omega

/-! ## Claim theorems for the line-profile model -/

/-- Claim C5: whenever `voigt_absorption` returns an array, the returned
length is the input length minus 6 (twice the kernel half-width) with
`boardening = true`, and equal to the input length with `boardening = false`. -/
theorem voigt_absorption_length (ws : List ℚ) (nhi z_dla : ℚ) (nl : ℕ) (b : Bool)
    (out : List ℝ) (h : voigt_absorption ws nhi z_dla nl b = some out) :
    out.length = if b then ws.length - 2 * width else ws.length := by
  by_cases h6 : ws.length < 2 * width
  · rw [voigt_absorption, if_pos h6] at h; cases h
  by_cases h31 : 31 < nl
  · rw [voigt_absorption, if_neg h6, if_pos h31] at h; cases h
  rw [voigt_absorption, if_neg h6, if_neg h31] at h
  cases b with
  | false =>
    simp only [Bool.false_eq_true, if_false, Option.some.injEq] at h
    rw [← h, rawProfile_length]
    simp
  | true =>
    simp only [if_true] at h
    by_cases hg : (convolveValid (rawProfile ws nhi z_dla nl)
        instrument_profileR).length = ws.length - 2 * width
    · rw [if_pos hg, Option.some.injEq] at h
      rw [← h, hg]
      simp
    · rw [if_neg hg] at h; cases h

/-- Witness for C5 at a concrete six-pixel grid without broadening. -/
theorem voigt_absorption_length_witness :
    (rawProfile [1215, 1216, 1217, 1218, 1219, 1220] 0 0 3).length = 6 := by
  have h : voigt_absorption [1215, 1216, 1217, 1218, 1219, 1220] 0 0 3 false
      = some (rawProfile [1215, 1216, 1217, 1218, 1219, 1220] 0 0 3) := by
    rw [voigt_absorption]
    norm_num [width]
  simpa using voigt_absorption_length _ 0 0 3 false _ h

/-- Claim C10: `voigt_absorption` raises (returns no array) on every
wavelength array with fewer than `2 * width = 6` pixels, for any `nhi`,
`z_dla`, `num_lines` and either broadening flag: the output buffer
`np.zeros(num_points - 2 * width)` is allocated before the broadening branch
and a negative dimension raises a `ValueError`. -/
theorem voigt_absorption_short_raises (ws : List ℚ) (h : ws.length < 2 * width)
    (nhi z_dla : ℚ) (nl : ℕ) (b : Bool) :
    voigt_absorption ws nhi z_dla nl b = none := by
  rw [voigt_absorption, if_pos h]

/-- Witness for C10 on a three-pixel grid with `boardening = false`. -/
theorem voigt_absorption_short_raises_witness :
    voigt_absorption [4000, 4001, 4002] 5 2 3 false = none :=
  voigt_absorption_short_raises _ (by decide) 5 2 3 false

/-- With `nhi = 0` (or `num_lines = 0`) the model's raw transmission is
identically 1, so `voigt_absorption` returns all ones with
`boardening = false`; with `boardening = true` every output pixel of the
exact-arithmetic model equals the total kernel mass `kernelMass`. Which
real number the program itself then reports at those pixels is a question
of IEEE float64 rounding, outside this exact model: the kernel taps sum to
`kernelMass`, within half an ulp of 1.0, so double-precision accumulation
rounds the broadened pixels back to exactly 1.0. -/
theorem voigt_absorption_vanishing_nhi (ws : List ℚ) (nhi z_dla : ℚ) (nl : ℕ)
    (b : Bool) (hn : nhi = 0 ∨ nl = 0) (hnl : nl ≤ 31)
    (hlen : if b then 2 * width < ws.length else 2 * width ≤ ws.length) :
    voigt_absorption ws nhi z_dla nl b
      = some (if b then List.replicate (ws.length - 2 * width) ((kernelMass : ℚ) : ℝ)
             else List.replicate ws.length 1) := by
  cases b with
  | false =>
    simp only [if_false, Bool.false_eq_true] at hlen ⊢
    rw [voigt_absorption, if_neg (by omega), if_neg (by omega)]
    simp only [Bool.false_eq_true, if_false]
    rw [rawProfile_eq_replicate ws nhi z_dla nl hn]
  | true =>
    simp only [if_true] at hlen ⊢
    rw [voigt_absorption, if_neg (by omega), if_neg (by omega)]
    simp only [if_true]
    rw [rawProfile_eq_replicate ws nhi z_dla nl hn,
      convolveValid_replicate_one ws.length (by simp [width] at hlen ⊢; omega)]
    rw [if_pos (by simp [width])]
    simp [width]

/-- Claim C7: holding `z_dla`, `num_lines` (at least the Lyman-alpha line,
within the 31 tabulated transitions) and the wavelength grid fixed, the
un-broadened transmission at the pixel whose observed wavelength is the
Lyman-alpha rest wavelength times `1 + z_dla` is strictly decreasing in
`nhi`: the optical depth at every pixel is a strictly positive multiple of
`nhi`, since the Voigt profile (real part of the Faddeeva function on the
upper half plane) is everywhere strictly positive. -/
theorem voigt_absorption_strict_mono_nhi (ws : List ℚ) (z_dla nhi1 nhi2 : ℚ)
    (nl : ℕ) (p : ℕ) (hnl1 : 1 ≤ nl) (hnl31 : nl ≤ 31)
    (hlen : 2 * width ≤ ws.length) (hp : p < ws.length)
    (hcen : ws.getD p 0 = transition_wavelengths.getD 0 0 * 10 ^ 8 * (1 + z_dla))
    (h0 : 0 ≤ nhi1) (h12 : nhi1 < nhi2) :
    outPixel (voigt_absorption ws nhi2 z_dla nl false) p
      < outPixel (voigt_absorption ws nhi1 z_dla nl false) p := by
  have hva : ∀ nhi : ℚ, voigt_absorption ws nhi z_dla nl false
      = some (rawProfile ws nhi z_dla nl) := by
    intro nhi
    rw [voigt_absorption, if_neg (by omega), if_neg (by omega)]
    simp
  have hS : (∑ l ∈ Finset.range nl,
      -((leading_constants.getD l 0 : ℚ) : ℝ) *
        Voigt ((ws.getD p 0 * multipliers z_dla l - c : ℚ) : ℝ)
          ((sigma : ℚ) : ℝ) ((gammas.getD l 0 : ℚ) : ℝ)) < 0 := by
    have hpos : (0:ℝ) < ∑ l ∈ Finset.range nl,
        ((leading_constants.getD l 0 : ℚ) : ℝ) *
          Voigt ((ws.getD p 0 * multipliers z_dla l - c : ℚ) : ℝ)
            ((sigma : ℚ) : ℝ) ((gammas.getD l 0 : ℚ) : ℝ) := by
      apply Finset.sum_pos
      · intro l hlmem
        have hl31 : l < 31 := lt_of_lt_of_le (Finset.mem_range.mp hlmem) hnl31
        apply mul_pos
        · exact_mod_cast leading_constants_pos l hl31
        · apply Voigt_pos
          · exact_mod_cast sigma_pos
          · exact_mod_cast gammas_pos l hl31
      · exact Finset.nonempty_range_iff.mpr (by omega)
    simpa [neg_mul, Finset.sum_neg_distrib] using neg_neg_of_pos hpos
  rw [hva nhi1, hva nhi2]
  simp only [outPixel, Option.getD_some]
  rw [rawProfile_getD ws nhi1 z_dla nl p hp, rawProfile_getD ws nhi2 z_dla nl p hp]
  exact Real.exp_lt_exp.mpr
    (mul_lt_mul_of_neg_right (by exact_mod_cast h12) hS)

/-- Witness for C7: the first pixel sits at the Lyman-alpha center for
`z_dla = 0`, and raising `nhi` from 0 to 1 strictly lowers the transmission
there. -/
theorem voigt_absorption_strict_mono_nhi_witness :
    outPixel (voigt_absorption [12156701 / 10 ^ 4, 1216, 1217, 1218, 1219, 1220]
        1 0 3 false) 0
      < outPixel (voigt_absorption [12156701 / 10 ^ 4, 1216, 1217, 1218, 1219, 1220]
        0 0 3 false) 0 := by
  apply voigt_absorption_strict_mono_nhi
  · norm_num
  · norm_num
  · norm_num [width]
  · norm_num
  · norm_num [transition_wavelengths]
  · norm_num
  · norm_num

/-! ## Claim theorems for the sample loader -/

/-- Claim C1 (amended): loading a precomputed DLA sample set succeeds exactly
when the loaded mixture weight `alpha` and the loaded uniform-prior lower
bound match the active `Parameters`; the uniform-prior upper bound is not
validated — on success it is taken from the file, overwriting the configured
value. -/
theorem DLASamplesMAT_init_validates (params : Parameters) (prior : PriorCatalog)
    (f : DLASamplesFile) :
    ((DLASamplesMAT_init params prior f).isSome
      ↔ params.alpha = f.alpha
          ∧ params.uniform_min_log_nhi = f.uniform_min_log_nhi)
    ∧ ∀ s, DLASamplesMAT_init params prior f = some s →
        s.uniform_max_log_nhi = f.uniform_max_log_nhi
          ∧ s.uniform_min_log_nhi = f.uniform_min_log_nhi
          ∧ s.offset_samples = f.offset_samples := by
  constructor
  · constructor
    · intro h
      by_cases ha : params.alpha = f.alpha
      · by_cases hm : params.uniform_min_log_nhi = f.uniform_min_log_nhi
        · exact ⟨ha, hm⟩
        · rw [DLASamplesMAT_init, if_pos ha, if_neg hm] at h; cases h
      · rw [DLASamplesMAT_init, if_neg ha] at h; cases h
    · rintro ⟨ha, hm⟩
      rw [DLASamplesMAT_init, if_pos ha, if_pos hm]
      rfl
  · intro s hs
    by_cases ha : params.alpha = f.alpha
    · by_cases hm : params.uniform_min_log_nhi = f.uniform_min_log_nhi
      · rw [DLASamplesMAT_init, if_pos ha, if_pos hm, Option.some.injEq] at hs
        rw [← hs]
        exact ⟨rfl, rfl, rfl⟩
      · rw [DLASamplesMAT_init, if_pos ha, if_neg hm] at hs; cases hs
    · rw [DLASamplesMAT_init, if_neg ha] at hs; cases hs

/-- Witness for the amended C1: a file whose upper bound disagrees while
`alpha` and the lower bound agree still loads. -/
theorem DLASamplesMAT_init_validates_witness :
    (DLASamplesMAT_init
      { num_dla_samples := 10000
        uniform_min_log_nhi := 20
        uniform_max_log_nhi := 23
        fit_min_log_nhi := 20
        fit_max_log_nhi := 22
        alpha := 1
        min_z_dla := fun _ _ => 0
        max_z_dla := fun _ _ => 0 }
      ⟨()⟩
      { alpha := 1
        uniform_min_log_nhi := 20
        uniform_max_log_nhi := 21
        offset_samples := []
        log_nhi_samples := []
        nhi_samples := [] }).isSome = true := by
  rw [(DLASamplesMAT_init_validates _ _ _).1]
  exact ⟨rfl, rfl⟩

/-- Counterexample for C1 as stated: a loaded upper bound (21) differing from
the configured upper bound (23) does not make the construction fail, as long
as `alpha` and the lower bound agree. -/
theorem DLASamplesMAT_init_accepts_max_mismatch :
    (DLASamplesMAT_init
      { num_dla_samples := 10000
        uniform_min_log_nhi := 20
        uniform_max_log_nhi := 23
        fit_min_log_nhi := 20
        fit_max_log_nhi := 22
        alpha := 1
        min_z_dla := fun _ _ => 0
        max_z_dla := fun _ _ => 0 }
      ⟨()⟩
      { alpha := 1
        uniform_min_log_nhi := 20
        uniform_max_log_nhi := 21
        offset_samples := []
        log_nhi_samples := []
        nhi_samples := [] }).isSome = true
    ∧ (23 : ℚ) ≠ (21 : ℚ) := by
  constructor
  · rw [DLASamplesMAT_init, if_pos rfl, if_pos rfl]
    rfl
  · norm_num

/-- Claim C8 (amended): `sample_z_dlas` returns one redshift per stored
offset sample, each the linear interpolation
`min_z_dla + (max_z_dla - min_z_dla) * offset`; when every offset lies in
`[0, 1)` and `min_z_dla < max_z_dla` (strictly — at `min_z_dla = max_z_dla`
the half-open interval `[min, max)` is empty while the sample equals `min`),
every returned redshift lies in `[min_z_dla, max_z_dla)`. -/
theorem sample_z_dlas_spec (s : DLASamplesMAT) (ws : List ℚ) (zq : ℚ) (i : ℕ)
    (hi : i < s.offset_samples.length)
    (hoff : ∀ o ∈ s.offset_samples, 0 ≤ o ∧ o < 1)
    (hlt : s.params.min_z_dla ws zq < s.params.max_z_dla ws zq) :
    (sample_z_dlas s ws zq).length = s.offset_samples.length
    ∧ (sample_z_dlas s ws zq).getD i 0
        = s.params.min_z_dla ws zq
          + (s.params.max_z_dla ws zq - s.params.min_z_dla ws zq)
            * s.offset_samples.getD i 0
    ∧ s.params.min_z_dla ws zq ≤ (sample_z_dlas s ws zq).getD i 0
    ∧ (sample_z_dlas s ws zq).getD i 0 < s.params.max_z_dla ws zq := by
  have hlen : (sample_z_dlas s ws zq).length = s.offset_samples.length := by
    simp [sample_z_dlas]
  have hget : (sample_z_dlas s ws zq).getD i 0
      = s.params.min_z_dla ws zq
        + (s.params.max_z_dla ws zq - s.params.min_z_dla ws zq)
          * s.offset_samples.getD i 0 := by
    rw [sample_z_dlas, List.getD_eq_getElem _ _ (by simpa using hi),
      List.getElem_map, List.getD_eq_getElem _ _ hi]
  have hmem : s.offset_samples.getD i 0 ∈ s.offset_samples := by
    rw [List.getD_eq_getElem _ _ hi]
    exact List.getElem_mem hi
  obtain ⟨ho0, ho1⟩ := hoff _ hmem
  refine ⟨hlen, hget, ?_, ?_⟩
  · rw [hget]
    nlinarith
  · rw [hget]
    nlinarith

/-- Witness for the amended C8 with offsets `0` and `1/2` interpolating
between redshifts 2 and 3. -/
theorem sample_z_dlas_spec_witness :
    (sample_z_dlas
      { params :=
          { num_dla_samples := 2
            uniform_min_log_nhi := 20
            uniform_max_log_nhi := 23
            fit_min_log_nhi := 20
            fit_max_log_nhi := 22
            alpha := 1
            min_z_dla := fun _ _ => 2
            max_z_dla := fun _ _ => 3 }
        prior := ⟨()⟩
        num_dla_samples := 2
        uniform_min_log_nhi := 20
        uniform_max_log_nhi := 23
        fit_min_log_nhi := 20
        fit_max_log_nhi := 22
        alpha := 1
        offset_samples := [0, 1/2]
        log_nhi_samples := []
        nhi_samples := [] } [3600, 3700] (5/2)).getD 1 0 = 2 + (3 - 2) * (1/2)
    ∧ (2:ℚ) ≤ 2 + (3 - 2) * (1/2) ∧ 2 + (3 - 2) * (1/2) < (3:ℚ) := by
  have h := sample_z_dlas_spec
    { params :=
        { num_dla_samples := 2
          uniform_min_log_nhi := 20
          uniform_max_log_nhi := 23
          fit_min_log_nhi := 20
          fit_max_log_nhi := 22
          alpha := 1
          min_z_dla := fun _ _ => 2
          max_z_dla := fun _ _ => 3 }
      prior := ⟨()⟩
      num_dla_samples := 2
      uniform_min_log_nhi := 20
      uniform_max_log_nhi := 23
      fit_min_log_nhi := 20
      fit_max_log_nhi := 22
      alpha := 1
      offset_samples := [0, 1/2]
      log_nhi_samples := []
      nhi_samples := [] } [3600, 3700] (5/2) 1 (by norm_num)
    (by intro o ho; fin_cases ho <;> norm_num) (by norm_num)
  refine ⟨?_, ?_, ?_⟩
  · have := h.2.1
    simpa using this
  · have h3 := h.2.2.1
    rw [h.2.1] at h3
    simpa using h3
  · have h4 := h.2.2.2
    rw [h.2.1] at h4
    simpa using h4

/-- Counterexample for C8 as stated: with `max_z_dla = min_z_dla` (allowed by
the claim's `max_z_dla >= min_z_dla`) and offset `0` in `[0, 1)`, the returned
redshift equals `min_z_dla` and therefore does not lie in the empty half-open
interval `[min_z_dla, max_z_dla)`. -/
theorem sample_z_dlas_degenerate_range :
    (sample_z_dlas
      { params :=
          { num_dla_samples := 1
            uniform_min_log_nhi := 20
            uniform_max_log_nhi := 23
            fit_min_log_nhi := 20
            fit_max_log_nhi := 22
            alpha := 1
            min_z_dla := fun _ _ => 2
            max_z_dla := fun _ _ => 2 }
        prior := ⟨()⟩
        num_dla_samples := 1
        uniform_min_log_nhi := 20
        uniform_max_log_nhi := 23
        fit_min_log_nhi := 20
        fit_max_log_nhi := 22
        alpha := 1
        offset_samples := [0]
        log_nhi_samples := []
        nhi_samples := [] } [3600, 3700] (5/2)).getD 0 0 = 2
    ∧ ((0:ℚ) ≤ 0 ∧ (0:ℚ) < 1)
    ∧ (2:ℚ) ≤ 2
    ∧ ¬((sample_z_dlas
      { params :=
          { num_dla_samples := 1
            uniform_min_log_nhi := 20
            uniform_max_log_nhi := 23
            fit_min_log_nhi := 20
            fit_max_log_nhi := 22
            alpha := 1
            min_z_dla := fun _ _ => 2
            max_z_dla := fun _ _ => 2 }
        prior := ⟨()⟩
        num_dla_samples := 1
        uniform_min_log_nhi := 20
        uniform_max_log_nhi := 23
        fit_min_log_nhi := 20
        fit_max_log_nhi := 22
        alpha := 1
        offset_samples := [0]
        log_nhi_samples := []
        nhi_samples := [] } [3600, 3700] (5/2)).getD 0 0 < 2) := by
  refine ⟨?_, by norm_num, by norm_num, ?_⟩
  · norm_num [sample_z_dlas]
  · norm_num [sample_z_dlas]

/-! ## Helper lemmas for the search orchestration -/

theorem lor_lor_self (a b : ℕ) : a ||| b ||| b = a ||| b := by
  rw [Nat.lor_assoc]
  apply Nat.eq_of_testBit_eq
  intro i
  simp [Nat.testBit_lor]

theorem balFlagStep_length (cst : Constants) (zdla : List ℚ) (fw : List ℕ)
    (window : ℚ × ℚ) :
    (balFlagStep cst zdla fw window).length = min zdla.length fw.length := by
  simp [balFlagStep]

theorem balFlagStep_getD (cst : Constants) (zdla : List ℚ) (fw : List ℕ)
    (window : ℚ × ℚ) (i : ℕ) (hi : i < zdla.length) (hlen : fw.length = zdla.length) :
    (balFlagStep cst zdla fw window).getD i 0
      = if cst.Lya_line * (1 + zdla.getD i 0) < window.1
          ∧ window.2 < cst.Lya_line * (1 + zdla.getD i 0)
        then fw.getD i 0 ||| POTENTIAL_BAL else fw.getD i 0 := by
  have hiw : i < fw.length := by omega
  have hib : i < (balFlagStep cst zdla fw window).length := by
    rw [balFlagStep_length]; omega
  rw [List.getD_eq_getElem _ _ hib, List.getD_eq_getElem _ _ hi,
    List.getD_eq_getElem _ _ hiw]
  simp only [balFlagStep]
  rw [List.getElem_zipWith]

theorem applyBalFlags_cons (cst : Constants) (w : ℚ × ℚ) (ws : List (ℚ × ℚ))
    (zdla : List ℚ) (fw : List ℕ) :
    applyBalFlags cst (w :: ws) zdla fw
      = applyBalFlags cst ws zdla (balFlagStep cst zdla fw w) := rfl

theorem applyBalFlags_getD (cst : Constants) (locs : List (ℚ × ℚ))
    (zdla : List ℚ) (fw : List ℕ) (i : ℕ) (hi : i < zdla.length)
    (hlen : fw.length = zdla.length) :
    (applyBalFlags cst locs zdla fw).getD i 0
      = fw.getD i 0 |||
          (if ∃ w ∈ locs, cst.Lya_line * (1 + zdla.getD i 0) < w.1
              ∧ w.2 < cst.Lya_line * (1 + zdla.getD i 0)
           then POTENTIAL_BAL else 0) := by
  induction locs generalizing fw with
  | nil =>
    simp [applyBalFlags]
  | cons w ws ih =>
    have hlen' : (balFlagStep cst zdla fw w).length = zdla.length := by
      rw [balFlagStep_length]; omega
    rw [applyBalFlags_cons, ih _ hlen', balFlagStep_getD cst zdla fw w i hi hlen]
    by_cases hw : cst.Lya_line * (1 + zdla.getD i 0) < w.1
        ∧ w.2 < cst.Lya_line * (1 + zdla.getD i 0)
    · have hcons : ∃ v ∈ w :: ws, cst.Lya_line * (1 + zdla.getD i 0) < v.1
          ∧ v.2 < cst.Lya_line * (1 + zdla.getD i 0) :=
        ⟨w, List.mem_cons_self w ws, hw⟩
      rw [if_pos hw, if_pos hcons]
      by_cases hws : ∃ v ∈ ws, cst.Lya_line * (1 + zdla.getD i 0) < v.1
          ∧ v.2 < cst.Lya_line * (1 + zdla.getD i 0)
      · rw [if_pos hws, lor_lor_self]
      · rw [if_neg hws, Nat.or_zero]
    · rw [if_neg hw]
      congr 1
      by_cases hws : ∃ v ∈ ws, cst.Lya_line * (1 + zdla.getD i 0) < v.1
          ∧ v.2 < cst.Lya_line * (1 + zdla.getD i 0)
      · rw [if_pos hws, if_pos (by
          obtain ⟨v, hv, hc⟩ := hws
          exact ⟨v, List.mem_cons_of_mem w hv, hc⟩)]
      · rw [if_neg hws, if_neg (by
          rintro ⟨v, hv, hc⟩
          rcases List.mem_cons.mp hv with rfl | hv'
          · exact hw hc
          · exact hws ⟨v, hv', hc⟩)]

/-! ## Claim theorems for the search orchestration -/

/-- Claim C2: a target is skipped exactly when the fraction of search-window
pixels with nonzero inverse variance is strictly below 0.2 (equivalently,
five times the nonzero count is strictly below the window size), and a
target at exactly the 80%-masked boundary is not skipped: the comparison is
strict. The argument list is `ivar[fitmask][searchmask]`, whose length is
the search-window pixel count `np.sum(searchmask)`. -/
theorem searchWindowSkip_iff (l : List ℚ) (h : 0 < l.length) :
    (searchWindowSkip l = true
      ↔ 5 * l.countP (fun x => decide (x ≠ 0)) < l.length)
    ∧ (5 * l.countP (fun x => decide (x ≠ 0)) = l.length
        → searchWindowSkip l = false) := by
  have hq : ((l.countP (fun x => decide (x ≠ 0)) : ℕ) : ℚ) / (l.length : ℚ) < 1 / 5
      ↔ 5 * l.countP (fun x => decide (x ≠ 0)) < l.length := by
    rw [div_lt_div_iff₀ (by exact_mod_cast h) (by norm_num : (0:ℚ) < 5)]
    constructor
    · intro hx
      rw [one_mul, mul_comm] at hx
      exact_mod_cast hx
    · intro hx
      rw [one_mul, mul_comm]
      exact_mod_cast hx
  have hskip : searchWindowSkip l
      = decide (((l.countP (fun x => decide (x ≠ 0)) : ℕ) : ℚ) / (l.length : ℚ)
          < 1 / 5) := by
    rw [searchWindowSkip, if_neg (by omega)]
  constructor
  · rw [hskip, decide_eq_true_eq]
    exact hq
  · intro he
    rw [hskip, decide_eq_false_iff_not, hq]
    omega

/-- Witness for C2: one nonzero-ivar pixel out of five (exactly 80% masked)
does not skip the target. -/
theorem searchWindowSkip_iff_witness :
    searchWindowSkip [1, 0, 0, 0, 0] = false := by
  apply (searchWindowSkip_iff [1, 0, 0, 0, 0] (by norm_num)).2
  norm_num [List.countP, List.countP.go]

/-- Claim C3: for an accepted absorber (`z_dla` different from the sentinel
`-1`), the `POTENTIAL_BAL` bit is OR-ed into its warning bitmask exactly when
its Lyman-alpha center wavelength `Lya_line * (1 + z_dla)` lies strictly
inside some recorded BAL window `(rededge, blueedge)`; an absorber outside
every recorded window keeps its bitmask unchanged. -/
theorem applyBalFlags_flags_iff (cst : Constants) (locs : List (ℚ × ℚ))
    (zdla : List ℚ) (fw : List ℕ) (hlen : fw.length = zdla.length) (i : ℕ)
    (hi : i < zdla.length) (hz : zdla.getD i 0 ≠ -1) :
    ((∃ w ∈ locs, cst.Lya_line * (1 + zdla.getD i 0) < w.1
        ∧ w.2 < cst.Lya_line * (1 + zdla.getD i 0)) →
      (applyBalFlags cst locs zdla fw).getD i 0
        = fw.getD i 0 ||| POTENTIAL_BAL)
    ∧ ((∀ w ∈ locs, ¬(cst.Lya_line * (1 + zdla.getD i 0) < w.1
        ∧ w.2 < cst.Lya_line * (1 + zdla.getD i 0))) →
      (applyBalFlags cst locs zdla fw).getD i 0 = fw.getD i 0) := by
  constructor
  · intro hex
    rw [applyBalFlags_getD cst locs zdla fw i hi hlen, if_pos hex]
  · intro hall
    rw [applyBalFlags_getD cst locs zdla fw i hi hlen, if_neg (by
      rintro ⟨w, hw, hc⟩
      exact hall w hw hc), Nat.or_zero]

/-- Witness for C3: with `Lya_line = 1000` and `z_dla = 1/4` the absorber
center 1250 lies strictly inside the window `(1300, 1200)` and the bit is
OR-ed in. -/
theorem applyBalFlags_flags_iff_witness :
    (applyBalFlags
      { search_minlam := 900, search_maxlam := 1600, c := 299792
        Lya_line := 1000, Lyb_line := 1026
        bal_lines := [("Lya", 1000), ("NV", 1240), ("CIV", 1549)] }
      [(1300, 1200)] [1/4] [0]).getD 0 0 = 0 ||| POTENTIAL_BAL := by
  apply (applyBalFlags_flags_iff _ [(1300, 1200)] [1/4] [0] rfl 0 (by norm_num)
    (by norm_num)).1
  refine ⟨(1300, 1200), List.mem_cons_self _ _, ?_, ?_⟩
  · norm_num
  · norm_num

/-! ## Helper lemmas for the BAL exclusion mask -/

theorem balLineStep_fst_length (wrf : List ℚ) (zq vmin vmax : ℚ)
    (st : List ℚ × List (ℚ × ℚ)) (le : String × ℚ) :
    (balLineStep wrf zq vmin vmax st le).1.length = min wrf.length st.1.length := by
  simp [balLineStep]

theorem balLineStep_snd (wrf : List ℚ) (zq vmin vmax : ℚ)
    (st : List ℚ × List (ℚ × ℚ)) (le : String × ℚ) :
    (balLineStep wrf zq vmin vmax st le).2
      = if le.1 = "Lya" ∨ le.1 = "NV"
        then st.2 ++ [(le.2 * vmin * (1 + zq), le.2 * vmax * (1 + zq))]
        else st.2 := rfl

theorem balLineStep_fst_getD (wrf : List ℚ) (zq vmin vmax : ℚ)
    (st : List ℚ × List (ℚ × ℚ)) (le : String × ℚ) (i : ℕ)
    (hi : i < wrf.length) (hlen : st.1.length = wrf.length) :
    (balLineStep wrf zq vmin vmax st le).1.getD i 0
      = if le.2 * vmax < wrf.getD i 0 ∧ wrf.getD i 0 < le.2 * vmin
        then 0 else st.1.getD i 0 := by
  have hii : i < st.1.length := by omega
  have hib : i < (balLineStep wrf zq vmin vmax st le).1.length := by
    rw [balLineStep_fst_length]; omega
  rw [List.getD_eq_getElem _ _ hib, List.getD_eq_getElem _ _ hi,
    List.getD_eq_getElem _ _ hii]
  simp only [balLineStep]
  rw [List.getElem_zipWith]

theorem foldl_balLineStep_fst_length (wrf : List ℚ) (zq vmin vmax : ℚ)
    (lines : List (String × ℚ)) (st : List ℚ × List (ℚ × ℚ))
    (hlen : st.1.length = wrf.length) :
    (lines.foldl (balLineStep wrf zq vmin vmax) st).1.length = wrf.length := by
  induction lines generalizing st with
  | nil => simpa using hlen
  | cons le ls ih =>
    rw [List.foldl_cons]
    exact ih _ (by rw [balLineStep_fst_length]; omega)

theorem foldl_balLineStep_snd (wrf : List ℚ) (zq vmin vmax : ℚ)
    (lines : List (String × ℚ)) (st : List ℚ × List (ℚ × ℚ)) :
    (lines.foldl (balLineStep wrf zq vmin vmax) st).2
      = st.2 ++ (lines.filter fun le => decide (le.1 = "Lya" ∨ le.1 = "NV")).map
          (fun le => (le.2 * vmin * (1 + zq), le.2 * vmax * (1 + zq))) := by
  induction lines generalizing st with
  | nil => simp
  | cons le ls ih =>
    rw [List.foldl_cons, ih, List.filter_cons]
    by_cases hle : le.1 = "Lya" ∨ le.1 = "NV"
    · rw [if_pos (by simpa using hle), List.map_cons, balLineStep_snd, if_pos hle]
      simp
    · rw [if_neg (by simpa using hle), balLineStep_snd, if_neg hle]

theorem foldl_balLineStep_fst_getD (wrf : List ℚ) (zq vmin vmax : ℚ)
    (lines : List (String × ℚ)) (st : List ℚ × List (ℚ × ℚ)) (i : ℕ)
    (hi : i < wrf.length) (hlen : st.1.length = wrf.length) :
    (lines.foldl (balLineStep wrf zq vmin vmax) st).1.getD i 0
      = if ∃ q ∈ lines, q.2 * vmax < wrf.getD i 0 ∧ wrf.getD i 0 < q.2 * vmin
        then 0 else st.1.getD i 0 := by
  induction lines generalizing st with
  | nil => simp
  | cons le ls ih =>
    rw [List.foldl_cons, ih _ (by rw [balLineStep_fst_length]; omega),
      balLineStep_fst_getD wrf zq vmin vmax st le i hi hlen]
    by_cases hle : le.2 * vmax < wrf.getD i 0 ∧ wrf.getD i 0 < le.2 * vmin
    · have hcons : ∃ q ∈ le :: ls, q.2 * vmax < wrf.getD i 0
          ∧ wrf.getD i 0 < q.2 * vmin := ⟨le, List.mem_cons_self le ls, hle⟩
      rw [if_pos hcons]
      by_cases hls : ∃ q ∈ ls, q.2 * vmax < wrf.getD i 0 ∧ wrf.getD i 0 < q.2 * vmin
      · rw [if_pos hls]
      · rw [if_neg hls, if_pos hle]
    · rw [if_neg hle]
      by_cases hls : ∃ q ∈ ls, q.2 * vmax < wrf.getD i 0 ∧ wrf.getD i 0 < q.2 * vmin
      · have hcons : ∃ q ∈ le :: ls, q.2 * vmax < wrf.getD i 0
            ∧ wrf.getD i 0 < q.2 * vmin := by
          obtain ⟨q, hq, hc⟩ := hls
          exact ⟨q, List.mem_cons_of_mem le hq, hc⟩
        rw [if_pos hls, if_pos hcons]
      · rw [if_neg hls, if_neg (by
          rintro ⟨q, hq, hc⟩
          rcases List.mem_cons.mp hq with rfl | hq'
          · exact hle hc
          · exact hls ⟨q, hq', hc⟩)]

theorem balFeatureStep_eq (cst : Constants) (zq : ℚ) (wrf : List ℚ)
    (st : List ℚ × List (ℚ × ℚ)) (f : BalFeature) :
    balFeatureStep cst zq wrf st f
      = cst.bal_lines.foldl
          (balLineStep wrf zq (-f.vmin / cst.c + 1) (-f.vmax / cst.c + 1)) st := rfl

theorem foldl_balFeatureStep_fst_length (cst : Constants) (zq : ℚ) (wrf : List ℚ)
    (features : List BalFeature) (st : List ℚ × List (ℚ × ℚ))
    (hlen : st.1.length = wrf.length) :
    (features.foldl (balFeatureStep cst zq wrf) st).1.length = wrf.length := by
  induction features generalizing st with
  | nil => simpa using hlen
  | cons f fs ih =>
    rw [List.foldl_cons]
    exact ih _ (by rw [balFeatureStep_eq]; exact foldl_balLineStep_fst_length _ _ _ _ _ _ hlen)

theorem foldl_balFeatureStep_snd (cst : Constants) (zq : ℚ) (wrf : List ℚ)
    (features : List BalFeature) (st : List ℚ × List (ℚ × ℚ)) :
    (features.foldl (balFeatureStep cst zq wrf) st).2
      = st.2 ++ features.flatMap (fun f =>
          (cst.bal_lines.filter fun q => decide (q.1 = "Lya" ∨ q.1 = "NV")).map
            fun q => (q.2 * (-f.vmin / cst.c + 1) * (1 + zq),
                      q.2 * (-f.vmax / cst.c + 1) * (1 + zq))) := by
  induction features generalizing st with
  | nil => simp
  | cons f fs ih =>
    rw [List.foldl_cons, ih, balFeatureStep_eq, foldl_balLineStep_snd]
    simp [List.append_assoc]

theorem foldl_balFeatureStep_fst_getD (cst : Constants) (zq : ℚ) (wrf : List ℚ)
    (features : List BalFeature) (st : List ℚ × List (ℚ × ℚ)) (i : ℕ)
    (hi : i < wrf.length) (hlen : st.1.length = wrf.length) :
    (features.foldl (balFeatureStep cst zq wrf) st).1.getD i 0
      = if ∃ f ∈ features, ∃ q ∈ cst.bal_lines,
            q.2 * (-f.vmax / cst.c + 1) < wrf.getD i 0
              ∧ wrf.getD i 0 < q.2 * (-f.vmin / cst.c + 1)
        then 0 else st.1.getD i 0 := by
  induction features generalizing st with
  | nil => simp
  | cons f fs ih =>
    rw [List.foldl_cons,
      ih _ (by rw [balFeatureStep_eq]; exact foldl_balLineStep_fst_length _ _ _ _ _ _ hlen),
      balFeatureStep_eq, foldl_balLineStep_fst_getD _ _ _ _ _ _ _ hi hlen]
    by_cases hf : ∃ q ∈ cst.bal_lines, q.2 * (-f.vmax / cst.c + 1) < wrf.getD i 0
        ∧ wrf.getD i 0 < q.2 * (-f.vmin / cst.c + 1)
    · have hcons : ∃ g ∈ f :: fs, ∃ q ∈ cst.bal_lines,
          q.2 * (-g.vmax / cst.c + 1) < wrf.getD i 0
            ∧ wrf.getD i 0 < q.2 * (-g.vmin / cst.c + 1) :=
        ⟨f, List.mem_cons_self f fs, hf⟩
      rw [if_pos hcons]
      by_cases hfs : ∃ g ∈ fs, ∃ q ∈ cst.bal_lines,
          q.2 * (-g.vmax / cst.c + 1) < wrf.getD i 0
            ∧ wrf.getD i 0 < q.2 * (-g.vmin / cst.c + 1)
      · rw [if_pos hfs]
      · rw [if_neg hfs, if_pos hf]
    · rw [if_neg hf]
      by_cases hfs : ∃ g ∈ fs, ∃ q ∈ cst.bal_lines,
          q.2 * (-g.vmax / cst.c + 1) < wrf.getD i 0
            ∧ wrf.getD i 0 < q.2 * (-g.vmin / cst.c + 1)
      · have hcons : ∃ g ∈ f :: fs, ∃ q ∈ cst.bal_lines,
            q.2 * (-g.vmax / cst.c + 1) < wrf.getD i 0
              ∧ wrf.getD i 0 < q.2 * (-g.vmin / cst.c + 1) := by
          obtain ⟨g, hg, hc⟩ := hfs
          exact ⟨g, List.mem_cons_of_mem f hg, hc⟩
        rw [if_pos hfs, if_pos hcons]
      · rw [if_neg hfs, if_neg (by
          rintro ⟨g, hg, hc⟩
          rcases List.mem_cons.mp hg with rfl | hg'
          · exact hf hc
          · exact hfs ⟨g, hg', hc⟩)]

/-- Claim C4 (amended): for a target with BAL metadata, the inverse variance
is zeroed at exactly the pixels whose rest-frame wavelength lies strictly
inside some feature's velocity window for some named BAL transition, and is
unchanged at pixels inside no window; the observed-wavelength window is
recorded in `bal_locs`, in iteration order, only for the Lya and NV
transitions (the only ones the downstream contamination flagging consults),
not for every named transition. -/
theorem applyBalMask_spec (cst : Constants) (zq : ℚ) (wrf ivar : List ℚ)
    (features : List BalFeature) (i : ℕ) (hi : i < wrf.length)
    (hlen : ivar.length = wrf.length) :
    ((∃ f ∈ features, ∃ q ∈ cst.bal_lines,
        q.2 * (-f.vmax / cst.c + 1) < wrf.getD i 0
          ∧ wrf.getD i 0 < q.2 * (-f.vmin / cst.c + 1)) →
      (applyBalMask cst zq wrf ivar features).1.getD i 0 = 0)
    ∧ ((∀ f ∈ features, ∀ q ∈ cst.bal_lines,
        ¬(q.2 * (-f.vmax / cst.c + 1) < wrf.getD i 0
          ∧ wrf.getD i 0 < q.2 * (-f.vmin / cst.c + 1))) →
      (applyBalMask cst zq wrf ivar features).1.getD i 0 = ivar.getD i 0)
    ∧ (applyBalMask cst zq wrf ivar features).2
        = features.flatMap (fun f =>
            (cst.bal_lines.filter fun q => decide (q.1 = "Lya" ∨ q.1 = "NV")).map
              fun q => (q.2 * (-f.vmin / cst.c + 1) * (1 + zq),
                        q.2 * (-f.vmax / cst.c + 1) * (1 + zq))) := by
  refine ⟨?_, ?_, ?_⟩
  · intro hex
    rw [applyBalMask, foldl_balFeatureStep_fst_getD cst zq wrf features (ivar, []) i hi hlen,
      if_pos hex]
  · intro hall
    rw [applyBalMask, foldl_balFeatureStep_fst_getD cst zq wrf features (ivar, []) i hi hlen,
      if_neg (by
        rintro ⟨f, hf, q, hq, hc⟩
        exact hall f hf q hq hc)]
  · rw [applyBalMask, foldl_balFeatureStep_snd]
    simp

/-- Witness for the amended C4: a pixel inside the CIV velocity window of the
single BAL feature is zeroed, a pixel in no window keeps its inverse
variance, and exactly the Lya and NV observed windows are recorded. -/
theorem applyBalMask_spec_witness :
    (applyBalMask
      { search_minlam := 900, search_maxlam := 1600, c := 300000
        Lya_line := 1216, Lyb_line := 1026
        bal_lines := [("Lya", 1216), ("NV", 1240), ("CIV", 1549)] }
      1 [950, 1300] [5, 7] [⟨30000, 60000⟩]).1.getD 1 0 = 0 := by
  apply (applyBalMask_spec _ 1 [950, 1300] [5, 7] [⟨30000, 60000⟩] 1
    (by norm_num) (by norm_num)).1
  refine ⟨⟨30000, 60000⟩, List.mem_cons_self _ _, ("CIV", 1549), ?_, ?_, ?_⟩
  · norm_num
  · norm_num
  · norm_num

/-- Counterexample for C4 as stated: in the same configuration the CIV
observed-wavelength window, although its velocity window was masked (the
witness pixel above was zeroed), is not among the recorded windows — only the
Lya and NV windows are recorded. -/
theorem applyBalMask_civ_not_recorded :
    (applyBalMask
      { search_minlam := 900, search_maxlam := 1600, c := 300000
        Lya_line := 1216, Lyb_line := 1026
        bal_lines := [("Lya", 1216), ("NV", 1240), ("CIV", 1549)] }
      1 [950, 1300] [5, 7] [⟨30000, 60000⟩]).1.getD 1 0 = 0
    ∧ ((1549 * (-(30000:ℚ) / 300000 + 1) * (1 + 1),
        1549 * (-(60000:ℚ) / 300000 + 1) * (1 + 1)) ∉
      (applyBalMask
        { search_minlam := 900, search_maxlam := 1600, c := 300000
          Lya_line := 1216, Lyb_line := 1026
          bal_lines := [("Lya", 1216), ("NV", 1240), ("CIV", 1549)] }
        1 [950, 1300] [5, 7] [⟨30000, 60000⟩]).2) := by
  have hspec := foldl_balFeatureStep_fst_getD
    { search_minlam := 900, search_maxlam := 1600, c := 300000
      Lya_line := 1216, Lyb_line := 1026
      bal_lines := [("Lya", 1216), ("NV", 1240), ("CIV", 1549)] }
    1 [950, 1300] [⟨30000, 60000⟩] ([5, 7], []) 1 (by norm_num) (by norm_num)
  constructor
  · rw [applyBalMask, hspec, if_pos ?_]
    refine ⟨⟨30000, 60000⟩, List.mem_cons_self _ _, ("CIV", 1549), ?_, ?_, ?_⟩
    · norm_num
    · norm_num
    · norm_num
  · rw [applyBalMask, foldl_balFeatureStep_snd]
    norm_num [List.filter_cons, List.mem_cons]
    exact fun x y h => absurd h (by simp)

/-! ## Helper lemmas for the aggregate result -/

theorem processEntry_rows (cst : Constants)
    (fitDLA : List ℚ → List ℚ → List ℚ → List Bool → DLAFitOutput)
    (wave : List ℚ) (e : CatalogEntry) (flux ivar0 : List ℚ) (r : TargetResult)
    (h : processEntry cst fitDLA wave e flux ivar0 = some r) :
    r.rows.length = r.zdla.countP (fun z => decide (z ≠ -1)) := by
  simp only [processEntry] at h
  split at h
  · cases h
  · rw [Option.some.injEq] at h
    subst h
    simp

/-- Claim C9: `process_spectra_group` returns the explicit empty result
exactly when no processed target reports any accepted absorber (every target
skipped or every fit sentinel-only), via the zero-row early exit; and each
processed target contributes exactly one output row per entry of its fitted
redshift array different from the sentinel `-1`. -/
theorem process_spectra_group_empty_iff (cst : Constants)
    (fitDLA : List ℚ → List ℚ → List ℚ → List Bool → DLAFitOutput)
    (wave : List ℚ) (entries : List (CatalogEntry × List ℚ × List ℚ)) :
    (process_spectra_group cst fitDLA wave entries = FitResults.empty
      ↔ ∀ efi ∈ entries, ∀ r : TargetResult,
          processEntry cst fitDLA wave efi.1 efi.2.1 efi.2.2 = some r →
            r.zdla.countP (fun z => decide (z ≠ -1)) = 0)
    ∧ ∀ efi ∈ entries, ∀ r : TargetResult,
        processEntry cst fitDLA wave efi.1 efi.2.1 efi.2.2 = some r →
          r.rows.length = r.zdla.countP (fun z => decide (z ≠ -1)) := by
  constructor
  · constructor
    · intro hemp efi hm r hr
      have hnil : entries.flatMap (fun efi =>
          ((processEntry cst fitDLA wave efi.1 efi.2.1 efi.2.2).map
            TargetResult.rows).getD []) = [] := by
        by_contra hne
        rw [process_spectra_group, if_neg (by simpa using hne)] at hemp
        cases hemp
      have hcomp : ((processEntry cst fitDLA wave efi.1 efi.2.1 efi.2.2).map
          TargetResult.rows).getD [] = [] := by
        rw [List.flatMap_eq_nil_iff] at hnil
        exact hnil _ hm
      rw [hr] at hcomp
      simp only [Option.map_some', Option.getD_some] at hcomp
      rw [← processEntry_rows cst fitDLA wave efi.1 efi.2.1 efi.2.2 r hr, hcomp]
      rfl
    · intro hall
      rw [process_spectra_group, if_pos ?_]
      rw [List.isEmpty_iff, List.flatMap_eq_nil_iff]
      intro efi hm
      cases hpe : processEntry cst fitDLA wave efi.1 efi.2.1 efi.2.2 with
      | none => simp
      | some r =>
        simp only [Option.map_some', Option.getD_some]
        apply List.eq_nil_of_length_eq_zero
        rw [processEntry_rows cst fitDLA wave efi.1 efi.2.1 efi.2.2 r hpe]
        exact hall efi hm r hpe
  · intro efi hm r hr
    exact processEntry_rows cst fitDLA wave efi.1 efi.2.1 efi.2.2 r hr

/-- Witness for C9: a single-target batch whose target is skipped (all
inverse variances zero in the search window) takes the early exit and yields
the explicit empty result. -/
theorem process_spectra_group_empty_iff_witness :
    process_spectra_group
      { search_minlam := 900, search_maxlam := 1600, c := 300000
        Lya_line := 1216, Lyb_line := 1026
        bal_lines := [("Lya", 1216), ("NV", 1240), ("CIV", 1549)] }
      (fun _ _ _ _ => ⟨[], [], [], [], [], [], []⟩)
      [1000, 1200]
      [({ tid := 7, ra := 10, dec := 20, z := 0, balFeatures := none }, [1, 1], [0, 0])]
      = FitResults.empty := by
  apply (process_spectra_group_empty_iff _ _ _ _).1.mpr
  intro efi hm r hr
  have hnone : processEntry
      { search_minlam := 900, search_maxlam := 1600, c := 300000
        Lya_line := 1216, Lyb_line := 1026
        bal_lines := [("Lya", 1216), ("NV", 1240), ("CIV", 1549)] }
      (fun _ _ _ _ => ⟨[], [], [], [], [], [], []⟩)
      [1000, 1200]
      { tid := 7, ra := 10, dec := 20, z := 0, balFeatures := none }
      [1, 1] [0, 0] = none := by
    norm_num [processEntry, applyMask, searchWindowSkip, List.countP,
      List.countP.go, List.filterMap_cons, List.filterMap_nil, List.zip_cons_cons,
      List.zip_nil_right, List.zip_nil_left, List.map_cons, List.map_nil]
  rw [List.mem_singleton] at hm
  subst hm
  rw [hnone] at hr
  cases hr

end DesiDla
